import Mathlib

/-!
Verification development for the assistant-backend core: the email
triage workflow (classify → summarize → conditionally draft) from
`app/services/agents/gmail_agent.py` and `app/services/agents/llm_agents.py`,
and the availability engine from `app/services/agents/calendar_agent.py`.

The generation provider is external and non-deterministic, so every
function that consumes provider text takes that text (or, for the
summarization step, the outcome of Python `eval` on that text) as an
explicit argument.  Times in the availability engine are modelled as
minutes from midnight of the first day of the requested range.
-/

namespace NewMembers

/-! ## Data model (app/models/email.py) -/

/-- `EmailMessage` from `app/models/email.py`. -/
structure EmailMessage where
  message_id : String
  thread_id : String
  subject : String
  sender : String
  recipient : String
  date : String
  body : String
  labels : List String
  deriving Repr, DecidableEq

/-- `EmailSummary` from `app/models/email.py`. -/
structure EmailSummary where
  main_purpose : String
  key_details : List String
  questions : List String
  deadlines : List String
  deriving Repr, DecidableEq

/-- `ReplyDraft` from `app/models/email.py`. -/
structure ReplyDraft where
  «to» : String
  subject : String
  body : String
  needs_review : Bool
  deriving Repr, DecidableEq

/-- The fallback summary built in the `except` branch of
`SummarizerAgent.summarize` / `GmailAgent._summarize_email`. -/
def defaultSummary : EmailSummary :=
  { main_purpose := "Failed to extract summary"
    key_details := []
    questions := []
    deadlines := [] }

/-! ## Classification (llm_agents.py lines 48-54, gmail_agent.py lines 128-138)

`classification = response.content.strip().lower()`, then reset to
`"manual"` when not in the valid list. -/

/-- Python's `str.strip()` with no argument: remove leading and
trailing whitespace. -/
def pyStrip (s : String) : String :=
  String.mk (((s.data.dropWhile Char.isWhitespace).reverse.dropWhile
    Char.isWhitespace).reverse)

/-- Python's `str.lower()` (ASCII case mapping, which covers every
string the workflow compares against). -/
def pyLower (s : String) : String := String.mk (s.data.map Char.toLower)

/-- The list `valid_classifications` from the source. -/
def validClassifications : List String := ["auto-reply", "draft-for-review", "manual"]

/-- The pure normalization applied to the provider text by
`ClassifierAgent.classify` and `GmailAgent._classify_email`:
`response.content.strip().lower()`, reset to `"manual"` when not in
`valid_classifications`. -/
def classifyText (raw : String) : String :=
  let classification := pyLower (pyStrip raw)
  if validClassifications.contains classification then classification else "manual"

/-! ## Summarization parsing (llm_agents.py lines 105-131, gmail_agent.py 185-211)

The source hands the provider text to Python `eval` and then reads the
four fields with `.get`, feeding them to the pydantic `EmailSummary`
constructor; any exception falls back to `defaultSummary` and logs
`str(e)` as the error.  Python values produced by `eval` are modelled by
`PyValue`; the `eval` call itself cannot be embedded (it runs arbitrary
Python), so the parsing step is a function of the eval outcome: either a
`PyValue` or the raised exception's message. -/

/-- A Python value as produced by `eval` of provider text. -/
inductive PyValue where
  | pyStr (s : String)
  | pyInt (n : Int)
  | pyList (xs : List PyValue)
  | pyDict (entries : List (String × PyValue))
  | pyNone

/-- Python type name, used in the `AttributeError` message raised when
`.get` is called on a non-dict value. -/
def PyValue.typeName : PyValue → String
  | .pyStr _ => "str"
  | .pyInt _ => "int"
  | .pyList _ => "list"
  | .pyDict _ => "dict"
  | .pyNone => "NoneType"

/-- `summary_dict.get(key, default)`: succeeds with the looked-up value
(or the default) on a dict, raises `AttributeError` otherwise. -/
def pyGet (v : PyValue) (key : String) (default : PyValue) : Except String PyValue :=
  match v with
  | .pyDict entries => .ok ((List.lookup key entries).getD default)
  | other => .error ("'" ++ other.typeName ++ "' object has no attribute 'get'")

/-- Pydantic validation of a `str` field of `EmailSummary`. -/
def fieldStr (v : PyValue) : Except String String :=
  match v with
  | .pyStr s => .ok s
  | _ => .error "validation error for EmailSummary: str type expected"

/-- Pydantic validation of the elements of a `List[str]` field. -/
def strListOf : List PyValue → Except String (List String)
  | [] => .ok []
  | v :: vs => do
    let s ← fieldStr v
    let rest ← strListOf vs
    return s :: rest

/-- Pydantic validation of a `List[str]` field of `EmailSummary`. -/
def fieldStrList (v : PyValue) : Except String (List String) :=
  match v with
  | .pyList xs => strListOf xs
  | _ => .error "validation error for EmailSummary: value is not a valid list"

/-- The body of the `try` block in `SummarizerAgent.summarize` /
`GmailAgent._summarize_email`, as a function of the `eval` outcome:
read the four fields with `.get` (with the source's defaults) and build
the `EmailSummary`. -/
def trySummary (outcome : Except String PyValue) : Except String EmailSummary := do
  let d ← outcome
  let v₁ ← pyGet d "main_purpose" (.pyStr "")
  let v₂ ← pyGet d "key_details" (.pyList [])
  let v₃ ← pyGet d "questions" (.pyList [])
  let v₄ ← pyGet d "deadlines" (.pyList [])
  let mp ← fieldStr v₁
  let kd ← fieldStrList v₂
  let qs ← fieldStrList v₃
  let dl ← fieldStrList v₄
  return { main_purpose := mp, key_details := kd, questions := qs, deadlines := dl }

/-- The `try`/`except Exception` of the summarization parsing step, on
the runs where `eval` either returned a value (`.ok v`) or raised an
exception that `except Exception` catches (`.error msg`, with
`msg = str(e)`): the resulting summary together with the failure reason
logged by the `except` branch, `none` on success.  The full behavior of
the step, including `eval` outcomes that escape `except Exception`, is
`summarizeStep` below. -/
def summarizeParse (outcome : Except String PyValue) : EmailSummary × Option String :=
  match trySummary outcome with
  | .ok s => (s, none)
  | .error e => (defaultSummary, some e)

/-- The outcome of Python `eval` on one text: a value, a raised
`Exception` — which the source's `except Exception` catches, logging
`str(e)` — or a raised `BaseException` that is not an `Exception`
(e.g. `SystemExit` from evaluating `exit()`), which `except Exception`
does not catch and which therefore propagates out of the parsing step.
(An `eval` that never terminates has no outcome at all; a total model
cannot represent it, and it likewise never reaches the fallback.) -/
inductive PyEvalOutcome where
  | val (v : PyValue)
  | exn (msg : String)
  | baseExn (msg : String)

/-- The summarization parsing step as the source's `try`/`except
Exception` actually behaves on an `eval` outcome: a `BaseException`
escapes the handler (the step raises to its caller, modelled as
`.error`); a caught exception, or a failing field extraction or
validation after a successful `eval`, falls back to `defaultSummary`
with the exception's `str` as the logged reason. -/
def summarizeStep (o : PyEvalOutcome) : Except String (EmailSummary × Option String) :=
  match o with
  | .baseExn msg => .error msg
  | .exn msg => .ok (summarizeParse (.error msg))
  | .val v => .ok (summarizeParse (.ok v))

/-- The summarization step as the source actually runs it: Python `eval`
is applied to the (stripped) raw provider text, then the `try`/`except
Exception` handles the outcome.  `pyEval` is the semantics of Python
`eval`, an oracle. -/
def summarizeFromProvider (pyEval : String → PyEvalOutcome) (raw : String) :
    Except String (EmailSummary × Option String) :=
  summarizeStep (pyEval (pyStrip raw))

/-! ## Reply drafting (llm_agents.py lines 199-207, gmail_agent.py 278-286) -/

/-- The pure part of `ReplyAgent.draft_reply` / `GmailAgent._draft_reply`:
build the `ReplyDraft` record from the email, the summary, the
classification and the provider's response text. -/
def draftReply (email : EmailMessage) (_summary : EmailSummary) (classification : String)
    (resp : String) : ReplyDraft :=
  { «to» := email.sender
    subject := "Re: " ++ email.subject
    body := pyStrip resp
    needs_review := classification == "draft-for-review" }

/-! ## The LangGraph workflow (gmail_agent.py lines 59-95, 302-349)

Entry point `classifier`, unconditional edge to `summarizer`, then a
conditional edge that routes to `reply_drafter` exactly when the
classification is in `["auto-reply", "draft-for-review"]` and to `END`
otherwise. -/

/-- The per-run state threaded through the LangGraph workflow
(`state_schema` in `_create_email_workflow`). -/
structure WorkflowState where
  email : EmailMessage
  classification : Option String
  summary : Option EmailSummary
  reply_draft : Option ReplyDraft
  user_id : String
  deriving Repr, DecidableEq

/-- One run of `self.email_workflow.invoke` that reaches the end of the
graph: classifier, then summarizer, then the conditional edge to the
reply drafter.  The three provider interactions are the explicit
arguments `cResp` (classifier response text), `sOutcome` (the `eval`
outcome on the summarizer response — a value or a caught exception's
message; an uncatchable `BaseException` instead aborts the whole
invocation, see `summarizeStep` and `processUnread`) and `dResp`
(drafter response text). -/
def runWorkflow (cResp : String) (sOutcome : Except String PyValue) (dResp : String)
    (st₀ : WorkflowState) : WorkflowState :=
  let cls := classifyText cResp
  let st₁ := { st₀ with classification := some cls }
  let summary := (summarizeParse sOutcome).1
  let st₂ := { st₁ with summary := some summary }
  if ["auto-reply", "draft-for-review"].contains cls then
    { st₂ with reply_draft := some (draftReply st₂.email summary cls dResp) }
  else st₂

/-! ## Batch processing (gmail_agent.py lines 302-362)

`process_unread` loops over the unread messages and calls
`self.email_workflow.invoke` on each with no `try`/`except` around the
loop body: an exception raised while processing one message propagates
out of the loop.  Each element of `invokeResults` is the outcome of the
workflow invocation for one message (exception message on failure). -/

/-- The accumulation loop of `process_unread` over the per-message
workflow outcomes: append each result, or propagate the first
exception. -/
def processUnread (invokeResults : List (Except String WorkflowState)) :
    Except String (List WorkflowState) :=
  match invokeResults with
  | [] => .ok []
  | r :: rs =>
    match r with
    | .error e => .error e
    | .ok st => (processUnread rs).map (fun l => st :: l)

/-- A concrete email used to instantiate universally quantified
statements about the workflow. -/
def sampleEmail : EmailMessage :=
  { message_id := "m1"
    thread_id := "t1"
    subject := "Hello"
    sender := "alice@example.com"
    recipient := "bob@example.com"
    date := "Mon, 1 Jan 2024 09:00:00 +0000"
    body := "Hi"
    labels := ["UNREAD"] }

/-- The initial per-message state passed by `process_unread` to
`self.email_workflow.invoke`: every stage output starts as `None`. -/
def sampleState : WorkflowState :=
  { email := sampleEmail
    classification := none
    summary := none
    reply_draft := none
    user_id := "u1" }

/-! ## Availability engine (calendar_agent.py lines 98-216)

`propose_time_slots` iterates the calendar days of the inclusive range,
skips weekdays absent from the working-hours dict, walks candidate
starts in 30-minute increments from the day's start hour, breaks once a
candidate's end would pass the day's end hour, keeps candidates passing
the strict overlap test against every busy period, and returns the
first 10 collected slots.

Times are minutes from midnight of day 0 of the range (one day is 1440
minutes); a day's index in the range plus the weekday index of the
range's first day determines its weekday name via `strftime('%A')`.
Busy periods are the intervals returned by the free/busy query,
likewise in minutes. -/

/-- `TimeSlot` from `app/models/calendar.py`, with the two instants in
minutes. -/
structure TimeSlot where
  start : Nat
  «end» : Nat
  timezone : String
  deriving Repr, DecidableEq

/-- Lowercased `strftime('%A')` weekday names, Monday first (Python's
`date.weekday()` order). -/
def weekdayNames : List String :=
  ["monday", "tuesday", "wednesday", "thursday", "friday", "saturday", "sunday"]

/-- Weekday name of the day with index `i` (day 0's weekday index plus
the day offset within the range). -/
def weekdayName (i : Nat) : String := weekdayNames.getD (i % 7) ""

/-- The default working-hours dict substituted when the caller passes
`working_hours=None`: Monday to Friday, 9 to 17. -/
def defaultWorkingHours : List (String × Nat × Nat) :=
  [("monday", (9, 17)), ("tuesday", (9, 17)), ("wednesday", (9, 17)),
   ("thursday", (9, 17)), ("friday", (9, 17))]

/-- The conflict check of the inner `for busy in busy_periods` loop:
some busy period `b` has `slot_start < busy_end and slot_end > busy_start`. -/
def slotConflicts (slotStart slotEnd : Nat) (busy : List (Nat × Nat)) : Bool :=
  busy.any (fun b => decide (slotStart < b.2) && decide (slotEnd > b.1))

/-- The `while slot_start < day_end` loop of one working day: generate
candidates of length `dur` from `slotStart` in 30-minute steps, break
once `slot_end > day_end`, keep the non-conflicting ones. -/
def daySlots (tz : String) (dur dayEnd : Nat) (busy : List (Nat × Nat))
    (slotStart : Nat) : List TimeSlot :=
  if h : slotStart < dayEnd then
    if dayEnd < slotStart + dur then []
    else if slotConflicts slotStart (slotStart + dur) busy then
      daySlots tz dur dayEnd busy (slotStart + 30)
    else
      { start := slotStart, «end» := slotStart + dur, timezone := tz } ::
        daySlots tz dur dayEnd busy (slotStart + 30)
  else []
termination_by dayEnd - slotStart
decreasing_by all_goals omega

/-- The `while current_date <= end_date_obj` loop: day `d` onward, with
`remaining` days left in the inclusive range.  A weekday absent from
the dict contributes nothing; a working day contributes its
`daySlots` between `start_hour` and `end_hour`. -/
def collectDays (tz : String) (dur : Nat) (wh : List (String × Nat × Nat))
    (busy : List (Nat × Nat)) (startWd : Nat) : Nat → Nat → List TimeSlot
  | _, 0 => []
  | d, remaining + 1 =>
    (match List.lookup (weekdayName (startWd + d)) wh with
     | none => []
     | some (startHour, endHour) =>
       daySlots tz dur (d * 1440 + endHour * 60) busy (d * 1440 + startHour * 60)) ++
      collectDays tz dur wh busy startWd (d + 1) remaining

/-- `CalendarAgent.propose_time_slots`, over the pure data the source
computes with: the requested duration, the number of days in the
inclusive date range, the weekday index of the range's first day, the
optional working-hours dict and the busy periods from the free/busy
query.  Returns `available_slots[:10]`. -/
def proposeTimeSlots (tz : String) (dur numDays startWd : Nat)
    (workingHours : Option (List (String × Nat × Nat))) (busy : List (Nat × Nat)) :
    List TimeSlot :=
  let wh := workingHours.getD defaultWorkingHours
  (collectDays tz dur wh busy startWd 0 numDays).take 10

/-! # Theorems -/

/-- C3: for every provider response text, the classification stage
returns a value in `{auto-reply, draft-for-review, manual}`; the text
is trimmed and lowercased, so case/whitespace variants of the three
labels are recognized, and any result outside the set maps to
`manual`. -/
theorem c3_classification_always_enumerated :
    (∀ raw : String, classifyText raw = "auto-reply" ∨ classifyText raw = "draft-for-review" ∨
      classifyText raw = "manual")
    ∧ classifyText " AUTO-REPLY " = "auto-reply"
    ∧ classifyText "  Draft-For-Review\n" = "draft-for-review"
    ∧ classifyText "MANUAL" = "manual"
    ∧ classifyText "please escalate to a human" = "manual" := by
  refine ⟨?_, by decide, by decide, by decide, by decide⟩
  intro raw
  by_cases hm : pyLower (pyStrip raw) ∈ validClassifications
  · have h₁ : classifyText raw = pyLower (pyStrip raw) := by simp [classifyText, hm]
    rw [h₁]
    simpa [validClassifications] using hm
  · simp [classifyText, hm]

/-- C4: when the classification resolves to `manual`, the run ends with
no draft output (the conditional edge routes to `END`, the drafting node
never runs); for `auto-reply` and `draft-for-review` the drafting node
runs and leaves a draft in the final state. -/
theorem c4_manual_is_terminal :
    (∀ cResp sOut dResp st₀, st₀.reply_draft = none → classifyText cResp = "manual" →
      (runWorkflow cResp sOut dResp st₀).reply_draft = none)
    ∧ (∀ cResp sOut dResp st₀,
        classifyText cResp = "auto-reply" ∨ classifyText cResp = "draft-for-review" →
        ∃ d, (runWorkflow cResp sOut dResp st₀).reply_draft = some d) := by
  constructor
  · intro cResp sOut dResp st₀ h₀ hcls
    simp [runWorkflow, hcls, h₀]
  · intro cResp sOut dResp st₀ hcls
    rcases hcls with h | h <;> simp [runWorkflow, h]

/-- Witness for `c4_manual_is_terminal` at concrete inputs. -/
theorem c4_manual_is_terminal_witness :
    (runWorkflow "manual" (.error "boom") "text" sampleState).reply_draft = none
    ∧ ∃ d, (runWorkflow "AUTO-REPLY" (.error "boom") "text" sampleState).reply_draft = some d :=
  ⟨c4_manual_is_terminal.1 "manual" (.error "boom") "text" sampleState rfl (by decide),
   c4_manual_is_terminal.2 "AUTO-REPLY" (.error "boom") "text" sampleState (Or.inl (by decide))⟩

/-- C5: every draft produced by the drafting stage has
`needs_review = (classification == "draft-for-review")`; in particular
a classifier response `"AUTO-REPLY"` normalizes to `auto-reply`, the
drafting stage executes, and the resulting draft has
`needs_review = false`. -/
theorem c5_needs_review_equals_draft_for_review :
    (∀ email summary cls resp,
      (draftReply email summary cls resp).needs_review = (cls == "draft-for-review"))
    ∧ classifyText "AUTO-REPLY" = "auto-reply"
    ∧ (∀ sOut dResp st₀, ∃ d, (runWorkflow "AUTO-REPLY" sOut dResp st₀).reply_draft = some d ∧
        d.needs_review = false) := by
  refine ⟨fun _ _ _ _ => rfl, by decide, ?_⟩
  intro sOut dResp st₀
  have hc : classifyText "AUTO-REPLY" = "auto-reply" := by decide
  refine ⟨draftReply st₀.email (summarizeParse sOut).1 "auto-reply" dResp, ?_, ?_⟩
  · simp [runWorkflow, hc]
  · simp [draftReply]

/-! ## Availability-engine lemmas -/

/-- Every slot generated for one working day starts at or after the
walk's start, fits before the day's end, has length `dur`, carries the
requested timezone and passes the conflict check. -/
theorem daySlots_mem {tz : String} {dur dayEnd : Nat} {busy : List (Nat × Nat)} :
    ∀ {slotStart : Nat} {p : TimeSlot}, p ∈ daySlots tz dur dayEnd busy slotStart →
      slotStart ≤ p.start ∧ p.start < dayEnd ∧ p.«end» = p.start + dur ∧
        p.«end» ≤ dayEnd ∧ p.timezone = tz ∧ slotConflicts p.start p.«end» busy = false := by
  have key : ∀ (n slotStart : Nat), dayEnd - slotStart ≤ n → ∀ (p : TimeSlot),
      p ∈ daySlots tz dur dayEnd busy slotStart →
      slotStart ≤ p.start ∧ p.start < dayEnd ∧ p.«end» = p.start + dur ∧
        p.«end» ≤ dayEnd ∧ p.timezone = tz ∧ slotConflicts p.start p.«end» busy = false := by
    intro n
    induction n with
    | zero =>
      intro s hs p hp
      rw [daySlots] at hp
      rw [dif_neg (by omega)] at hp
      simp at hp
    | succ n ih =>
      intro s hs p hp
      rw [daySlots] at hp
      split at hp
      · split at hp
        · simp at hp
        · split at hp
          · obtain ⟨_, rest⟩ := ih (s + 30) (by omega) p hp
            exact ⟨by omega, rest⟩
          · rcases List.mem_cons.mp hp with rfl | hp'
            · rename_i h₁ h₂ h₃
              exact ⟨Nat.le_refl _, h₁, rfl, (by omega : s + dur ≤ dayEnd), rfl,
                by simpa using h₃⟩
            · obtain ⟨_, rest⟩ := ih (s + 30) (by omega) p hp'
              exact ⟨by omega, rest⟩
      · simp at hp
  intro s p hp
  exact key (dayEnd - s) s (Nat.le_refl _) p hp

/-- The slots of one working day are strictly increasing in start
time. -/
theorem daySlots_sorted {tz : String} {dur dayEnd : Nat} {busy : List (Nat × Nat)} :
    ∀ {slotStart : Nat}, (daySlots tz dur dayEnd busy slotStart).Pairwise
      (fun p q => p.start < q.start) := by
  have key : ∀ (n s : Nat), dayEnd - s ≤ n →
      (daySlots tz dur dayEnd busy s).Pairwise (fun p q => p.start < q.start) := by
    intro n
    induction n with
    | zero =>
      intro s hs
      rw [daySlots, dif_neg (by omega)]
      exact List.Pairwise.nil
    | succ n ih =>
      intro s hs
      rw [daySlots]
      split
      · split
        · exact List.Pairwise.nil
        · split
          · exact ih (s + 30) (by omega)
          · refine List.Pairwise.cons ?_ (ih (s + 30) (by omega))
            intro q hq
            have h30 := (daySlots_mem hq).1
            show s < q.start
            omega
      · exact List.Pairwise.nil
  intro s
  exact key (dayEnd - s) s (Nat.le_refl _)

/-- A successful dict lookup pins down an entry of the dict. -/
theorem lookup_mem {k : String} {v : Nat × Nat} :
    ∀ {l : List (String × Nat × Nat)}, List.lookup k l = some v → (k, v) ∈ l := by
  intro l
  induction l with
  | nil => intro h; simp [List.lookup] at h
  | cons a l ih =>
    intro h
    rw [List.lookup] at h
    split at h
    · rename_i heq
      refine List.mem_cons.mpr (Or.inl ?_)
      have hk : k = a.1 := eq_of_beq heq
      have hv : a.2 = v := Option.some.inj h
      rw [hk, ← hv]
    · exact List.mem_cons.mpr (Or.inr (ih h))

/-- Every slot collected across the days of the range belongs to some
in-range working day `d'`: the working-hours dict maps that day's
weekday to hours `(sh, eh)`, and the slot lies inside that window. -/
theorem collectDays_mem {tz : String} {dur : Nat} {wh : List (String × Nat × Nat)}
    {busy : List (Nat × Nat)} {startWd : Nat} :
    ∀ {r d : Nat} {p : TimeSlot}, p ∈ collectDays tz dur wh busy startWd d r →
      ∃ d' sh eh, d ≤ d' ∧ d' < d + r ∧
        List.lookup (weekdayName (startWd + d')) wh = some (sh, eh) ∧
        d' * 1440 + sh * 60 ≤ p.start ∧ p.start < d' * 1440 + eh * 60 ∧
        p.«end» = p.start + dur ∧ p.«end» ≤ d' * 1440 + eh * 60 ∧ p.timezone = tz ∧
        slotConflicts p.start p.«end» busy = false := by
  intro r
  induction r with
  | zero => intro d p hp; simp [collectDays] at hp
  | succ r ih =>
    intro d p hp
    rw [collectDays] at hp
    rcases List.mem_append.mp hp with hp₁ | hp₂
    · rcases hlk : List.lookup (weekdayName (startWd + d)) wh with _ | ⟨sh, eh⟩
      · rw [hlk] at hp₁; simp at hp₁
      · rw [hlk] at hp₁
        obtain ⟨h₁, h₂, h₃, h₄, h₅, h₆⟩ := daySlots_mem hp₁
        exact ⟨d, sh, eh, Nat.le_refl _, by omega, hlk, h₁, h₂, h₃, h₄, h₅, h₆⟩
    · obtain ⟨d', sh, eh, hd₁, hd₂, rest⟩ := ih hp₂
      exact ⟨d', sh, eh, by omega, by omega, rest⟩

/-- When every end hour in the dict is at most 24 (Python's
`datetime.time` accepts at most hour 23), the slots collected across
days are strictly increasing in start time. -/
theorem collectDays_sorted {tz : String} {dur : Nat} {wh : List (String × Nat × Nat)}
    {busy : List (Nat × Nat)} {startWd : Nat}
    (hwh : ∀ e ∈ wh, e.2.2 ≤ 24) :
    ∀ (r d : Nat), (collectDays tz dur wh busy startWd d r).Pairwise
      (fun p q => p.start < q.start) := by
  intro r
  induction r with
  | zero => intro d; simp [collectDays]
  | succ r ih =>
    intro d
    rw [collectDays]
    rw [List.pairwise_append]
    refine ⟨?_, ih (d + 1), ?_⟩
    · rcases hlk : List.lookup (weekdayName (startWd + d)) wh with _ | ⟨sh, eh⟩
      · exact List.Pairwise.nil
      · exact daySlots_sorted
    · intro p hp q hq
      rcases hlk : List.lookup (weekdayName (startWd + d)) wh with _ | ⟨sh, eh⟩
      · rw [hlk] at hp; simp at hp
      · rw [hlk] at hp
        have hpe := daySlots_mem hp
        have heh : eh ≤ 24 := hwh _ (lookup_mem hlk)
        obtain ⟨d', sh', eh', hd₁, _, _, hq₁, _⟩ := collectDays_mem hq
        have : p.start < d * 1440 + eh * 60 := hpe.2.1
        have : d' * 1440 + sh' * 60 ≤ q.start := hq₁
        omega

/-- C1 is violated by the source: the summarization parsing step applies
Python `eval` to the raw provider text, so its result depends on the
evaluation of that text as a Python expression, not only on a pure
decode of the text.  Two evaluation semantics that differ on the same
raw text give different parse results. -/
theorem c1_parse_step_evaluates_text :
    ∃ (raw : String) (eval₁ eval₂ : String → PyEvalOutcome),
      summarizeFromProvider eval₁ raw ≠ summarizeFromProvider eval₂ raw := by
  refine ⟨"__import__(\x27os\x27).getcwd()",
    fun _ => .val (.pyDict [("main_purpose", .pyStr "x")]),
    fun _ => .exn "NameError: name \x27__import__\x27 is not defined", ?_⟩
  intro h
  exact absurd (Except.ok.inj h) (by decide)

/-- C2 is violated by the source, on both counts, because the parsing
step evaluates the provider text as code.  First conjunct: evaluating
`"exit()"` raises `SystemExit`, a `BaseException` that the source's
`except Exception` does not catch (`str(SystemExit()) = ""`), so the
parsing step raises to its caller and the run does not complete.
Second conjunct: evaluating `"next(iter([]))"` raises `StopIteration()`
with `str(e) = ""`; it is caught and the default summary is produced,
but the logged failure reason is empty, not non-empty as claimed.
Third conjunct: on every caught exception the step does fall back to
the default summary, with exactly `str(e)` — possibly empty — as the
reason. -/
theorem c2_parse_escapes_or_logs_empty_reason :
    summarizeFromProvider (fun _ => .baseExn "") "exit()" = .error ""
    ∧ summarizeFromProvider (fun _ => .exn "") "next(iter([]))" =
        .ok (defaultSummary, some "")
    ∧ (∀ m, summarizeStep (.exn m) = .ok (defaultSummary, some m)) :=
  ⟨rfl, rfl, fun _ => rfl⟩

/-- C9 is violated by the source: `process_unread` has no per-message
exception handling, so the first failing workflow invocation aborts the
whole batch — the remaining messages are never processed and no result
list is returned. -/
theorem c9_first_failure_aborts_batch :
    ∀ (e : String) (rest : List (Except String WorkflowState)),
      processUnread (.error e :: rest) = .error e := by
  intro e rest
  rfl

/-- C6: every returned slot has duration exactly `dur`, lies entirely
within the working-hours window of its day, and passes the strict
overlap test against every busy interval; the two concrete conjuncts
show that a slot exactly abutting a busy interval (slot start = busy
end, and slot end = busy start) is not discarded. -/
theorem c6_proposed_slots_well_formed :
    (∀ (tz : String) (dur numDays startWd : Nat)
        (whO : Option (List (String × Nat × Nat))) (busy : List (Nat × Nat)) (p : TimeSlot),
        p ∈ proposeTimeSlots tz dur numDays startWd whO busy →
        p.«end» = p.start + dur
        ∧ (∃ d sh eh, d < numDays ∧
            List.lookup (weekdayName (startWd + d)) (whO.getD defaultWorkingHours) =
              some (sh, eh) ∧
            d * 1440 + sh * 60 ≤ p.start ∧ p.«end» ≤ d * 1440 + eh * 60)
        ∧ ∀ b ∈ busy, ¬(p.start < b.2 ∧ p.«end» > b.1))
    ∧ (⟨600, 630, "UTC"⟩ : TimeSlot) ∈ proposeTimeSlots "UTC" 30 1 0 none [(540, 600)]
    ∧ (⟨600, 630, "UTC"⟩ : TimeSlot) ∈ proposeTimeSlots "UTC" 30 1 0 none [(630, 660)] := by
  refine ⟨?_, ?_, ?_⟩
  · intro tz dur numDays startWd whO busy p hp
    have hmem : p ∈ collectDays tz dur (whO.getD defaultWorkingHours) busy startWd 0 numDays :=
      List.mem_of_mem_take hp
    obtain ⟨d, sh, eh, _, hd₂, hlk, hs₁, _, he, he₂, _, hconf⟩ := collectDays_mem hmem
    refine ⟨he, ⟨d, sh, eh, by omega, hlk, hs₁, he₂⟩, ?_⟩
    intro b hb hov
    have h := List.any_eq_false.mp hconf b hb
    simp at h
    omega
  · simp [proposeTimeSlots, collectDays, daySlots, slotConflicts, weekdayName, weekdayNames,
      defaultWorkingHours, List.lookup]
  · simp [proposeTimeSlots, collectDays, daySlots, slotConflicts, weekdayName, weekdayNames,
      defaultWorkingHours, List.lookup]

/-- Witness for `c6_proposed_slots_well_formed` at the slot 10:00-10:30
of a Monday with busy interval 09:00-10:00. -/
theorem c6_proposed_slots_well_formed_witness :
    (⟨600, 630, "UTC"⟩ : TimeSlot).«end» = (⟨600, 630, "UTC"⟩ : TimeSlot).start + 30
    ∧ (∃ d sh eh, d < 1 ∧
        List.lookup (weekdayName (0 + d))
          ((none : Option (List (String × Nat × Nat))).getD defaultWorkingHours) =
            some (sh, eh) ∧
        d * 1440 + sh * 60 ≤ (⟨600, 630, "UTC"⟩ : TimeSlot).start ∧
        (⟨600, 630, "UTC"⟩ : TimeSlot).«end» ≤ d * 1440 + eh * 60)
    ∧ ∀ b ∈ [((540 : Nat), (600 : Nat))],
        ¬((⟨600, 630, "UTC"⟩ : TimeSlot).start < b.2 ∧
          (⟨600, 630, "UTC"⟩ : TimeSlot).«end» > b.1) :=
  c6_proposed_slots_well_formed.1 "UTC" 30 1 0 none [(540, 600)] ⟨600, 630, "UTC"⟩
    c6_proposed_slots_well_formed.2.1

/-- C7: the proposed list is strictly ascending in start time and holds
at most 10 slots.  The hypothesis mirrors Python's `datetime.time`
constraint that an hour is at most 23: any run that completes has every
configured end hour below 24. -/
theorem c7_sorted_and_capped (tz : String) (dur numDays startWd : Nat)
    (whO : Option (List (String × Nat × Nat))) (busy : List (Nat × Nat))
    (hwh : ∀ e ∈ whO.getD defaultWorkingHours, e.2.2 ≤ 24) :
    (proposeTimeSlots tz dur numDays startWd whO busy).Pairwise (fun p q => p.start < q.start)
    ∧ (proposeTimeSlots tz dur numDays startWd whO busy).length ≤ 10 := by
  constructor
  · exact List.Pairwise.sublist (List.take_sublist _ _)
      (@collectDays_sorted tz dur (whO.getD defaultWorkingHours) busy startWd hwh numDays 0)
  · simp only [proposeTimeSlots]
    exact List.length_take_le _ _

/-- Witness for `c7_sorted_and_capped` under the default policy. -/
theorem c7_sorted_and_capped_witness :
    (proposeTimeSlots "UTC" 30 7 0 none [(540, 600)]).Pairwise (fun p q => p.start < q.start)
    ∧ (proposeTimeSlots "UTC" 30 7 0 none [(540, 600)]).length ≤ 10 :=
  c7_sorted_and_capped "UTC" 30 7 0 none [(540, 600)] (by decide)

/-- C8: the availability engine is a pure, deterministic function of
exactly the arguments below — the embedding of `propose_time_slots` is
a total function with no clock input, matching the source, which
derives every quantity from its parameters and never reads wall-clock
time; identical arguments give identical output. -/
theorem c8_pure_deterministic :
    ∀ (tz₁ tz₂ : String) (dur₁ dur₂ n₁ n₂ w₁ w₂ : Nat)
      (wh₁ wh₂ : Option (List (String × Nat × Nat))) (b₁ b₂ : List (Nat × Nat)),
      tz₁ = tz₂ → dur₁ = dur₂ → n₁ = n₂ → w₁ = w₂ → wh₁ = wh₂ → b₁ = b₂ →
      proposeTimeSlots tz₁ dur₁ n₁ w₁ wh₁ b₁ = proposeTimeSlots tz₂ dur₂ n₂ w₂ wh₂ b₂ := by
  intro tz₁ tz₂ dur₁ dur₂ n₁ n₂ w₁ w₂ wh₁ wh₂ b₁ b₂ h₁ h₂ h₃ h₄ h₅ h₆
  subst h₁; subst h₂; subst h₃; subst h₄; subst h₅; subst h₆
  rfl

/-- Witness for `c8_pure_deterministic` at concrete arguments. -/
theorem c8_pure_deterministic_witness :
    proposeTimeSlots "UTC" 60 5 2 none [(540, 600), (780, 840)] =
      proposeTimeSlots "UTC" 60 5 2 none [(540, 600), (780, 840)] :=
  c8_pure_deterministic "UTC" "UTC" 60 60 5 5 2 2 none none
    [(540, 600), (780, 840)] [(540, 600), (780, 840)] rfl rfl rfl rfl rfl rfl

/-- C10: with `working_hours=None` the engine substitutes the default
Monday-Friday 9-17 policy, every returned slot falls on a day whose
weekday is neither Saturday nor Sunday, and a range consisting only of
a Saturday and a Sunday yields no slots. -/
theorem c10_default_policy_weekdays_only :
    (∀ (tz : String) (dur n swd : Nat) (busy : List (Nat × Nat)),
      proposeTimeSlots tz dur n swd none busy =
        proposeTimeSlots tz dur n swd (some defaultWorkingHours) busy)
    ∧ (∀ (tz : String) (dur n swd : Nat) (busy : List (Nat × Nat)) (p : TimeSlot),
        p ∈ proposeTimeSlots tz dur n swd none busy →
        weekdayName (swd + p.start / 1440) ≠ "saturday"
        ∧ weekdayName (swd + p.start / 1440) ≠ "sunday")
    ∧ proposeTimeSlots "UTC" 30 2 5 none [] = [] := by
  refine ⟨fun _ _ _ _ _ => rfl, ?_, by decide⟩
  intro tz dur n swd busy p hp
  have hmem : p ∈ collectDays tz dur defaultWorkingHours busy swd 0 n :=
    List.mem_of_mem_take hp
  obtain ⟨d, sh, eh, _, _, hlk, hs₁, hs₂, _, _, _, _⟩ := collectDays_mem hmem
  have hent := lookup_mem hlk
  simp [defaultWorkingHours] at hent
  have hkey : sh = 9 ∧ eh = 17 ∧ weekdayName (swd + d) ≠ "saturday" ∧
      weekdayName (swd + d) ≠ "sunday" := by
    rcases hent with ⟨h, h9, h17⟩ | ⟨h, h9, h17⟩ | ⟨h, h9, h17⟩ | ⟨h, h9, h17⟩ | ⟨h, h9, h17⟩ <;>
      exact ⟨h9, h17, by rw [h]; decide, by rw [h]; decide⟩
  obtain ⟨h9, h17, hsat, hsun⟩ := hkey
  subst h9; subst h17
  have hd : p.start / 1440 = d := by omega
  rw [hd]
  exact ⟨hsat, hsun⟩

/-- Witness for `c10_default_policy_weekdays_only` at the first Monday
slot. -/
theorem c10_default_policy_weekdays_only_witness :
    weekdayName (0 + 540 / 1440) ≠ "saturday" ∧ weekdayName (0 + 540 / 1440) ≠ "sunday" :=
  c10_default_policy_weekdays_only.2.1 "UTC" 30 1 0 [] ⟨540, 570, "UTC"⟩
    (by simp [proposeTimeSlots, collectDays, daySlots, slotConflicts, weekdayName,
      weekdayNames, defaultWorkingHours, List.lookup])

end NewMembers
